import Mathlib

/-!
Shallow embedding of the hash-linked vote ledger in `src/app.py`.

The Python code's side effects are made explicit:
* `time.time()` calls become timestamp parameters (a timestamp is modelled
  as the string Python's f-string interpolation renders into the hash input);
* `hashlib.sha256(...).hexdigest()` becomes a function parameter
  `sha256 : String → String` (the code relies only on it being a pure,
  deterministic function of the input string);
* a Python exception escaping to the caller becomes `Except.error`;
* the durable JSON file becomes a `Source`: a missing file, an unparsable
  file, or a parsed list of records whose fields may be absent (an absent
  field models a dict without that key, so reading it raises `KeyError`).
-/

namespace VotingSystem

/-- One block of the chain, as built by `Block.__init__`:
all eight attributes, with `hash` stored as a field (Python sets it once in
the constructor but it is an ordinary mutable attribute). -/
structure Block where
  index : Nat
  timestamp : String
  voter_hash : String
  state : String
  district : String
  party : String
  previous_hash : String
  hash : String
deriving DecidableEq, Repr

/-- `Block.calculate_hash`: sha256 over the f-string concatenation of the
seven fields, in the committed order. -/
def calculate_hash (sha256 : String → String) (index : Nat)
    (timestamp voter_hash state district party previous_hash : String) : String :=
  sha256 (Nat.repr index ++ timestamp ++ voter_hash ++ state ++ district
    ++ party ++ previous_hash)

/-- `Block.__init__`: stores the six constructor arguments, captures the
wall-clock `timestamp`, and sets `hash := calculate_hash()`. -/
def Block.make (sha256 : String → String) (index : Nat)
    (timestamp voter_hash state district party previous_hash : String) : Block :=
  { index := index, timestamp := timestamp, voter_hash := voter_hash,
    state := state, district := district, party := party,
    previous_hash := previous_hash,
    hash := calculate_hash sha256 index timestamp voter_hash state district
      party previous_hash }

/-- One record of the durable JSON file: a flat dict whose keys may be
absent (`none` models a missing key; reading it raises `KeyError`). -/
structure RawRecord where
  index : Option Nat
  timestamp : Option String
  voter_hash : Option String
  state : Option String
  district : Option String
  party : Option String
  previous_hash : Option String
  hash : Option String
deriving DecidableEq, Repr

/-- `Block.to_dict`: `self.__dict__`, all eight attributes present. -/
def Block.to_dict (b : Block) : RawRecord :=
  { index := some b.index, timestamp := some b.timestamp,
    voter_hash := some b.voter_hash, state := some b.state,
    district := some b.district, party := some b.party,
    previous_hash := some b.previous_hash, hash := some b.hash }

/-- What `load_chain`'s `open`/`json.load` can yield: a missing file
(`FileNotFoundError`), an unparsable one (`json.JSONDecodeError`), or a
parsed list of records. -/
inductive Source where
  | missing : Source
  | unparsable : Source
  | records : List RawRecord → Source
deriving DecidableEq, Repr

/-- `Blockchain.create_genesis_block`: appends
`Block(0, "GENESIS", "None", "None", "None", "0")` to the chain, with the
wall-clock timestamp `ts`. -/
def create_genesis_block (sha256 : String → String) (ts : String)
    (chain : List Block) : List Block :=
  chain ++ [Block.make sha256 0 ts "GENESIS" "None" "None" "None" "0"]

/-- `Blockchain.add_vote`: if the chain is empty, first create the genesis
block (at wall-clock `tsG`); then read `chain[-1]` (the outer `Option` is
`none` exactly when that indexing would raise `IndexError`), hash the voter
id, and append the new block built at wall-clock `ts`.  The second component
of the pair is the Python function's return value: the body has no `return`
statement, so it returns `None`. -/
def add_vote (sha256 : String → String) (tsG ts : String) (chain : List Block)
    (voter_id state district party : String) :
    Option (List Block × Option Block) :=
  let c := if chain.length = 0 then create_genesis_block sha256 tsG chain else chain
  match c.getLast? with
  | none => none
  | some previous_block =>
    let voter_hash := sha256 voter_id
    let new_block := Block.make sha256 c.length ts voter_hash state district
      party previous_block.hash
    some (c ++ [new_block], none)

/-- `Blockchain.is_chain_valid`: for `i` in `1..len-1`, compare
`chain[i].previous_hash` with `chain[i-1].hash`; `False` on the first
mismatch, `True` otherwise. -/
def is_chain_valid : List Block → Bool
  | [] => true
  | [_] => true
  | a :: b :: rest => (b.previous_hash == a.hash) && is_chain_valid (b :: rest)

/-- `Blockchain.save_chain`: serialize every block, in order, to its flat
record. -/
def save_chain (chain : List Block) : List RawRecord :=
  chain.map Block.to_dict

/-- The loop body of `Blockchain.load_chain`: rebuild each record into a
`Block` via the constructor.  `block_data['k']` on a record missing the key
`k` raises `KeyError`, which the surrounding `except (FileNotFoundError,
json.JSONDecodeError)` does not catch, so it is `Except.error`.  The
constructor takes a fresh wall-clock timestamp (`tss` applied to the
position) and recomputes the hash; the stored `timestamp` and `hash` keys
are never read. -/
def load_blocks (sha256 : String → String) (tss : Nat → String) :
    List RawRecord → List Block → Except Unit (List Block)
  | [], acc => Except.ok acc
  | r :: rs, acc =>
    match r.index, r.voter_hash, r.state, r.district, r.party, r.previous_hash with
    | some i, some vh, some s, some d, some p, some ph =>
      load_blocks sha256 tss rs
        (acc ++ [Block.make sha256 i (tss acc.length) vh s d p ph])
    | _, _, _, _, _, _ => Except.error ()

/-- The trailing `if len(self.chain) == 0: self.create_genesis_block()` of
`load_chain`. -/
def ensure_nonempty (sha256 : String → String) (tsG : String)
    (chain : List Block) : List Block :=
  if chain.length = 0 then create_genesis_block sha256 tsG chain else chain

/-- `Blockchain.load_chain`: on `FileNotFoundError` or `JSONDecodeError`
the existing chain (`chain0`, `[]` when called from `__init__`) gets a
genesis block; on a parse success the chain is rebuilt from the records
(a `KeyError` escapes); finally an empty chain gets a genesis block. -/
def load_chain (sha256 : String → String) (tsG : String) (tss : Nat → String)
    (chain0 : List Block) (src : Source) : Except Unit (List Block) :=
  match src with
  | Source.missing => Except.ok (ensure_nonempty sha256 tsG
      (create_genesis_block sha256 tsG chain0))
  | Source.unparsable => Except.ok (ensure_nonempty sha256 tsG
      (create_genesis_block sha256 tsG chain0))
  | Source.records rs =>
    match load_blocks sha256 tss rs [] with
    | Except.error e => Except.error e
    | Except.ok c => Except.ok (ensure_nonempty sha256 tsG c)

/-- `Blockchain.__init__`: `self.chain = []` then `self.load_chain()`. -/
def Blockchain.init (sha256 : String → String) (tsG : String)
    (tss : Nat → String) (src : Source) : Except Unit (List Block) :=
  load_chain sha256 tsG tss [] src

/-- The grouping key of `get_vote_counts`'s
`df.groupby(["state", "district", "party"])`. -/
def blockKey (b : Block) : String × String × String :=
  (b.state, b.district, b.party)

/-- Lexicographic order on grouping keys: pandas sorts group keys
ascending. -/
def keyLe (a b : String × String × String) : Bool :=
  match compare a.1 b.1 with
  | Ordering.lt => true
  | Ordering.gt => false
  | Ordering.eq =>
    match compare a.2.1 b.2.1 with
    | Ordering.lt => true
    | Ordering.gt => false
    | Ordering.eq => (compare a.2.2 b.2.2).isLE

/-- The DataFrame `get_vote_counts` returns: its column names and its rows. -/
structure VoteCountsFrame where
  columns : List String
  rows : List (String × String × String × Nat)
deriving DecidableEq, Repr

/-- `get_vote_counts`: keep blocks with `index > 0`; an empty frame gets the
explicit columns `["State", "District", "Party", "Votes"]`; otherwise group
by `(state, district, party)` (keys sorted ascending, as pandas does),
count each group's size, and `reset_index(name="Votes")` yields the
lower-case key columns plus `Votes`. -/
def get_vote_counts (chain : List Block) : VoteCountsFrame :=
  let voted := chain.filter (fun b => decide (0 < b.index))
  if voted.isEmpty then
    { columns := ["State", "District", "Party", "Votes"], rows := [] }
  else
    { columns := ["state", "district", "party", "Votes"],
      rows := (List.insertionSort (fun a b => keyLe a b = true)
          ((voted.map blockKey).dedup)).map
        (fun k => (k.1, k.2.1, k.2.2,
          (voted.filter (fun b => decide (blockKey b = k))).length)) }

/-- `add_vote` iterated over a list of `(voter_id, state, district, party)`
tuples, threading the chain; `tss` supplies the wall-clock timestamp of each
call (applied to the chain length at that moment). -/
def add_votes (sha256 : String → String) (tss : Nat → String) :
    List (String × String × String × String) → List Block → Option (List Block)
  | [], chain => some chain
  | v :: vs, chain =>
    match add_vote sha256 (tss chain.length) (tss chain.length) chain
        v.1 v.2.1 v.2.2.1 v.2.2.2 with
    | none => none
    | some (c, _) => add_votes sha256 tss vs c

/-- A concrete stand-in for `hashlib.sha256(...).hexdigest()` used in the
closed test theorems; the code relies only on the hash being a pure function
of its input, which the identity function is. -/
def sha_id : String → String := fun s => s

/-- A concrete ledger built purely through `add_vote` on a fresh genesis
chain: genesis at wall-clock "10", one vote at wall-clock "11". -/
def c1_orig : List Block :=
  ((add_vote sha_id "10" "11" (create_genesis_block sha_id "10" [])
    "voterA" "Kerala" "Ernakulam" "LDF").map Prod.fst).getD []

/-- `c1_orig` saved and loaded back, the reload happening at wall-clock
"99" (a later time than the original timestamps "10" and "11"). -/
def c1_reloaded : List Block :=
  match load_chain sha_id "99" (fun _ => "99") []
      (Source.records (save_chain c1_orig)) with
  | Except.ok c => c
  | Except.error _ => []

/-- A durable record with the required key `index` absent. -/
def c5_malformed : RawRecord :=
  { index := none, timestamp := some "12", voter_hash := some "vh",
    state := some "Kerala", district := some "Ernakulam", party := some "LDF",
    previous_hash := some "0", hash := some "h" }

/-- A ledger whose non-genesis entries carry the jurisdictions and choices
of the tally test: two Kerala/Ernakulam/LDF votes and one
Tamil Nadu/Chennai/BJP vote, built through `add_vote` calls. -/
def c8_chain : List Block :=
  (add_votes sha_id (fun n => Nat.repr n)
    [("voterA", "Kerala", "Ernakulam", "LDF"),
     ("voterB", "Kerala", "Ernakulam", "LDF"),
     ("voterC", "Tamil Nadu", "Chennai", "BJP")]
    (create_genesis_block sha_id "0" [])).getD []

/-- On a non-empty chain `add_vote` skips genesis creation, reads the last
block, and appends one block built from the arguments. -/
lemma add_vote_cons (sha256 : String → String) (tsG ts : String)
    (a : Block) (t : List Block) (v s d p : String) :
    add_vote sha256 tsG ts (a :: t) v s d p =
      some ((a :: t) ++ [Block.make sha256 (a :: t).length ts (sha256 v)
        s d p (((a :: t).getLast (List.cons_ne_nil a t)).hash)], none) := by
  simp [add_vote, List.getLast?_eq_getLast (a :: t) (List.cons_ne_nil a t)]

/-- C7: A freshly constructed ledger (constructor with no durable file)
contains exactly the genesis entry: index 0, voter fingerprint "GENESIS",
link hash "0", and `is_chain_valid` holds on it. -/
theorem fresh_ledger_genesis (sha256 : String → String) (tsG : String)
    (tss : Nat → String) :
    Blockchain.init sha256 tsG tss Source.missing =
      Except.ok [Block.make sha256 0 tsG "GENESIS" "None" "None" "None" "0"]
    ∧ (Block.make sha256 0 tsG "GENESIS" "None" "None" "None" "0").index = 0
    ∧ (Block.make sha256 0 tsG "GENESIS" "None" "None" "None" "0").voter_hash
        = "GENESIS"
    ∧ (Block.make sha256 0 tsG "GENESIS" "None" "None" "None" "0").previous_hash
        = "0"
    ∧ is_chain_valid
        [Block.make sha256 0 tsG "GENESIS" "None" "None" "None" "0"] = true :=
  ⟨rfl, rfl, rfl, rfl, rfl⟩

/-- C6: Loading from a missing source, an unparsable source, or a source
with zero records yields a ledger equal to a freshly created genesis-only
chain, returned successfully rather than failing the caller. -/
theorem load_missing_or_empty_reinitializes (sha256 : String → String)
    (tsG : String) (tss : Nat → String) :
    Blockchain.init sha256 tsG tss Source.missing =
      Except.ok (create_genesis_block sha256 tsG [])
    ∧ Blockchain.init sha256 tsG tss Source.unparsable =
      Except.ok (create_genesis_block sha256 tsG [])
    ∧ Blockchain.init sha256 tsG tss (Source.records []) =
      Except.ok (create_genesis_block sha256 tsG []) :=
  ⟨rfl, rfl, rfl⟩

/-- C9: `add_vote` is total on every chain, the empty one included: it never
hits the `IndexError` of `chain[-1]` (the result is always `some`), the
resulting chain is non-empty, and on a zero-block chain it behaves exactly
as if the genesis block had been created first. -/
theorem add_vote_total (sha256 : String → String) (tsG ts : String)
    (chain : List Block) (v s d p : String) :
    (∃ c, add_vote sha256 tsG ts chain v s d p = some (c, none)
      ∧ 0 < c.length)
    ∧ add_vote sha256 tsG ts [] v s d p =
        add_vote sha256 tsG ts (create_genesis_block sha256 tsG []) v s d p := by
  constructor
  · cases chain with
    | nil =>
      refine ⟨_, rfl, ?_⟩
      simp [create_genesis_block]
    | cons a t =>
      rw [add_vote_cons]
      exact ⟨_, rfl, by simp⟩
  · rfl

/-- C4 counterexample: at a concrete non-empty ledger, `add_vote` completes
(the block is appended) but its return value is Python `None`, not the new
entry the claim says it returns. -/
theorem add_vote_returns_none_cex :
    (add_vote sha_id "10" "11" (create_genesis_block sha_id "10" [])
      "voterA" "Kerala" "Ernakulam" "LDF").map (fun r => r.2) = some none
    ∧ (add_vote sha_id "10" "11" (create_genesis_block sha_id "10" [])
      "voterA" "Kerala" "Ernakulam" "LDF").map (fun r => r.2) ≠
      some (some (Block.make sha_id 1 "11" (sha_id "voterA") "Kerala"
        "Ernakulam" "LDF"
        (calculate_hash sha_id 0 "10" "GENESIS" "None" "None" "None" "0"))) := by
  constructor
  · rfl
  · decide

/-- C4 (amended): on a non-empty ledger `add_vote` builds a block whose
index is the pre-append length, whose fingerprint is the hash of the raw
identifier and whose link hash is the last block's hash, appends exactly
that one block (the existing prefix unchanged) — and returns `None`, not
the new entry. -/
theorem add_vote_spec_amended (sha256 : String → String) (tsG ts : String)
    (a : Block) (t : List Block) (v s d p : String) :
    add_vote sha256 tsG ts (a :: t) v s d p =
      some ((a :: t) ++ [Block.make sha256 (a :: t).length ts (sha256 v)
        s d p (((a :: t).getLast (List.cons_ne_nil a t)).hash)], none) :=
  add_vote_cons sha256 tsG ts a t v s d p

/-- C1 (evaluating the code at the failing input): the ledger `c1_orig`,
built purely through `add_vote` on a fresh genesis chain, is valid; saving
it and loading it back at a later wall-clock time succeeds but does NOT
reproduce the entries: the reloaded timestamps differ from the stored ones,
the recomputed hashes differ from the stored hashes, and `is_chain_valid`
on the reloaded ledger is `false` — because `load_chain` rebuilds each
block with a fresh `time.time()` timestamp and recomputes its hash instead
of restoring the stored `timestamp` and `hash` fields. -/
theorem load_after_save_breaks_chain :
    is_chain_valid c1_orig = true
    ∧ load_chain sha_id "99" (fun _ => "99") []
        (Source.records (save_chain c1_orig)) = Except.ok c1_reloaded
    ∧ c1_reloaded.length = c1_orig.length
    ∧ is_chain_valid c1_reloaded = false
    ∧ c1_reloaded.map Block.timestamp ≠ c1_orig.map Block.timestamp
    ∧ c1_reloaded.map (fun b => some b.hash) ≠
        (save_chain c1_orig).map RawRecord.hash := by
  refine ⟨rfl, rfl, rfl, rfl, by decide, by decide⟩

/-- If some record of the list is missing one of the six keys the loop
reads, the record loop raises (`KeyError`), whatever the accumulator. -/
lemma load_blocks_error_of_missing (sha256 : String → String)
    (tss : Nat → String) (r : RawRecord)
    (hmiss : r.index = none ∨ r.voter_hash = none ∨ r.state = none ∨
      r.district = none ∨ r.party = none ∨ r.previous_hash = none) :
    ∀ (rs : List RawRecord) (acc : List Block), r ∈ rs →
      load_blocks sha256 tss rs acc = Except.error () := by
  intro rs
  induction rs with
  | nil => intro acc h; cases h
  | cons x xs ih =>
    intro acc hmem
    rcases List.mem_cons.mp hmem with hx | hx
    · subst hx
      rcases r with ⟨i, ts, vh, s, d, p, ph, hh⟩
      cases i <;> cases vh <;> cases s <;> cases d <;> cases p <;> cases ph <;>
        simp_all [load_blocks]
    · rcases x with ⟨i, ts, vh, s, d, p, ph, hh⟩
      cases i <;> cases vh <;> cases s <;> cases d <;> cases p <;> cases ph <;>
        (simp [load_blocks]; try exact ih _ hx)

/-- C5 counterexample: a source holding one record that is missing the
required key `index` makes `load_chain` raise to the caller
(`Except.error`), and in particular it does not reinitialize to a fresh
genesis-only ledger. -/
theorem load_malformed_record_cex :
    load_chain sha_id "99" (fun _ => "99") []
      (Source.records [c5_malformed]) = Except.error ()
    ∧ load_chain sha_id "99" (fun _ => "99") []
      (Source.records [c5_malformed]) ≠
        Except.ok (create_genesis_block sha_id "99" []) := by
  have h1 : load_chain sha_id "99" (fun _ => "99") []
      (Source.records [c5_malformed]) = Except.error () := rfl
  refine ⟨h1, ?_⟩
  rw [h1]
  simp

/-- C5 (amended): a durable source containing a record that is missing one
of the required keys (`index`, `voter_hash`, `state`, `district`, `party`,
`previous_hash`) makes `load_chain` raise an uncaught error (`KeyError`) to
the caller; the treat-the-load-as-absent reinitialization applies only to a
missing or unparsable source, not to malformed records. -/
theorem load_malformed_record_raises (sha256 : String → String)
    (tsG : String) (tss : Nat → String) (chain0 : List Block)
    (rs : List RawRecord) (r : RawRecord) (hmem : r ∈ rs)
    (hmiss : r.index = none ∨ r.voter_hash = none ∨ r.state = none ∨
      r.district = none ∨ r.party = none ∨ r.previous_hash = none) :
    load_chain sha256 tsG tss chain0 (Source.records rs) =
      Except.error () := by
  have h := load_blocks_error_of_missing sha256 tss r hmiss rs [] hmem
  simp [load_chain, h]

/-- C5 witness: the amended theorem applied to the concrete malformed
record `c5_malformed`. -/
theorem load_malformed_record_raises_witness :
    load_chain sha_id "99" (fun _ => "99") []
      (Source.records [c5_malformed]) = Except.error () :=
  load_malformed_record_raises sha_id "99" (fun _ => "99") []
    [c5_malformed] c5_malformed (List.mem_singleton.mpr rfl) (Or.inl rfl)

/-- Appending one block to a chain whose last element is `pb` is valid
exactly when the chain was valid and the new block links to `pb`. -/
lemma is_chain_valid_snoc (b : Block) :
    ∀ (c : List Block) (pb : Block), c.getLast? = some pb →
      is_chain_valid (c ++ [b]) =
        (is_chain_valid c && (b.previous_hash == pb.hash)) := by
  intro c
  induction c with
  | nil => intro pb h; simp at h
  | cons a t ih =>
    intro pb h
    cases t with
    | nil =>
      simp only [List.getLast?_singleton, Option.some.injEq] at h
      subst h
      simp [is_chain_valid, Bool.and_comm]
    | cons a2 t2 =>
      have h2 : (a2 :: t2).getLast? = some pb := by
        rwa [List.getLast?_cons_cons] at h
      have ih2 := ih pb h2
      simp only [List.cons_append] at ih2 ⊢
      rw [is_chain_valid, is_chain_valid, ih2, Bool.and_assoc]

/-- Iterating `add_vote` over any vote list preserves the chain invariants:
the result exists, grows by one block per vote, keeps `index = position`,
and stays valid. -/
lemma add_votes_good (sha256 : String → String) (tss : Nat → String) :
    ∀ (votes : List (String × String × String × String)) (chain : List Block),
      chain ≠ [] →
      chain.map Block.index = List.range chain.length →
      is_chain_valid chain = true →
      ∃ d, add_votes sha256 tss votes chain = some d ∧
        d.length = chain.length + votes.length ∧
        d.map Block.index = List.range d.length ∧
        is_chain_valid d = true := by
  intro votes
  induction votes with
  | nil =>
    intro chain h1 h2 h3
    exact ⟨chain, rfl, by simp, h2, h3⟩
  | cons v vs ih =>
    intro chain h1 h2 h3
    rcases chain with _ | ⟨a, t⟩
    · exact absurd rfl h1
    · have hstep := add_vote_cons sha256 (tss (a :: t).length)
        (tss (a :: t).length) a t v.1 v.2.1 v.2.2.1 v.2.2.2
      have hlast : (a :: t).getLast? =
          some ((a :: t).getLast (List.cons_ne_nil a t)) :=
        List.getLast?_eq_getLast (a :: t) (List.cons_ne_nil a t)
      set nb := Block.make sha256 (a :: t).length (tss (a :: t).length)
        (sha256 v.1) v.2.1 v.2.2.1 v.2.2.2
        (((a :: t).getLast (List.cons_ne_nil a t)).hash) with hnb
      have hvalid : is_chain_valid ((a :: t) ++ [nb]) = true := by
        rw [is_chain_valid_snoc nb (a :: t) _ hlast, h3, Bool.true_and]
        simp [hnb, Block.make]
      have hidx : ((a :: t) ++ [nb]).map Block.index =
          List.range ((a :: t) ++ [nb]).length := by
        rw [List.map_append, h2]
        simp [hnb, Block.make, List.range_succ]
      have hne : (a :: t) ++ [nb] ≠ [] := by simp
      rcases ih ((a :: t) ++ [nb]) hne hidx hvalid with
        ⟨d, hd, hlen, hmap, hval⟩
      refine ⟨d, ?_, ?_, hmap, hval⟩
      · rw [add_votes, hstep]
        exact hd
      · rw [hlen]
        simp
        omega

/-- C2: after `n` sequential `add_vote` calls starting from a fresh
genesis-only chain, the chain has `n + 1` entries, entry `i` has
`index = i` for every position (the indices read `0, 1, ..., n`), and
`is_chain_valid` holds. -/
theorem chain_growth (sha256 : String → String) (ts0 : String)
    (tss : Nat → String) (votes : List (String × String × String × String)) :
    ∃ d, add_votes sha256 tss votes (create_genesis_block sha256 ts0 [])
        = some d ∧
      d.length = votes.length + 1 ∧
      d.map Block.index = List.range d.length ∧
      is_chain_valid d = true := by
  have h := add_votes_good sha256 tss votes (create_genesis_block sha256 ts0 [])
    (by simp [create_genesis_block])
    (by simp [create_genesis_block, Block.make, List.range_succ])
    rfl
  rcases h with ⟨d, hd, hlen, hmap, hval⟩
  refine ⟨d, hd, ?_, hmap, hval⟩
  rw [hlen]
  simp [create_genesis_block]
  omega

/-- `is_chain_valid` holds exactly when each block links to its
predecessor's stored hash. -/
lemma is_chain_valid_iff_chain :
    ∀ c : List Block, is_chain_valid c = true ↔
      List.Chain' (fun a b => b.previous_hash = a.hash) c := by
  intro c
  induction c with
  | nil => simp [is_chain_valid]
  | cons a t ih =>
    cases t with
    | nil => simp [is_chain_valid]
    | cons b r =>
      rw [is_chain_valid, Bool.and_eq_true, beq_iff_eq, ih, List.chain'_cons]

/-- `is_chain_valid` reads only the stored `previous_hash` and `hash`
fields: two chains agreeing on those agree on the verdict. -/
lemma is_chain_valid_congr :
    ∀ c d : List Block, c.map Block.previous_hash = d.map Block.previous_hash →
      c.map Block.hash = d.map Block.hash →
      is_chain_valid c = is_chain_valid d := by
  intro c
  induction c with
  | nil =>
    intro d h1 _
    have : d = [] := by simpa using h1.symm
    rw [this]
  | cons a t ih =>
    intro d h1 h2
    rcases d with _ | ⟨a2, t2⟩
    · simp at h1
    · simp only [List.map_cons, List.cons.injEq] at h1 h2
      cases t with
      | nil =>
        have : t2 = [] := by simpa using h1.2.symm
        rw [this]
        rfl
      | cons b r =>
        rcases t2 with _ | ⟨b2, r2⟩
        · simp at h1
        · simp only [List.map_cons, List.cons.injEq] at h1 h2
          rw [is_chain_valid, is_chain_valid, h1.2.1, h2.1,
            ih (b2 :: r2) (by simp [h1.2.1, h1.2.2]) (by simp [h2.2.1, h2.2.2])]

/-- C3: `is_chain_valid` returns true exactly when every entry from
position 1 on has `previous_hash` equal to its predecessor's stored `hash`
(equivalently, the chain of stored links is consistent); it is vacuously
true for chains of length at most 1; and it never recomputes a hash from
an entry's fields: the verdict depends only on the stored `previous_hash`
and `hash` fields. -/
theorem is_chain_valid_characterization (c : List Block) :
    (is_chain_valid c = true ↔
      ∀ (i : Nat) (h : i + 1 < c.length),
        (c.get ⟨i + 1, h⟩).previous_hash =
          (c.get ⟨i, Nat.lt_of_succ_lt h⟩).hash)
    ∧ (is_chain_valid c = true ↔
        List.Chain' (fun a b => b.previous_hash = a.hash) c)
    ∧ (c.length ≤ 1 → is_chain_valid c = true)
    ∧ (∀ d : List Block,
        c.map Block.previous_hash = d.map Block.previous_hash →
        c.map Block.hash = d.map Block.hash →
        is_chain_valid c = is_chain_valid d) := by
  refine ⟨?_, is_chain_valid_iff_chain c, ?_, is_chain_valid_congr c⟩
  · rw [is_chain_valid_iff_chain c, List.chain'_iff_get]
    constructor
    · intro h i hi
      exact h i (by omega)
    · intro h i hi
      exact h i (by omega)
  · intro h
    rcases c with _ | ⟨a, t⟩
    · rfl
    · rcases t with _ | ⟨b, r⟩
      · rfl
      · simp at h

/-- C8: `get_vote_counts` filters out the genesis entry (`index > 0`),
groups the remaining entries by `(state, district, party)` and counts each
group: every row's count is the number of non-genesis entries with that
key, every non-genesis entry's key has a row, and on the concrete ledger
with votes (Kerala, Ernakulam, LDF), (Kerala, Ernakulam, LDF),
(Tamil Nadu, Chennai, BJP) it yields the counts 2 and 1. -/
theorem tally_counts (chain : List Block) :
    (∀ s d p n, (s, d, p, n) ∈ (get_vote_counts chain).rows →
      n = ((chain.filter (fun b => decide (0 < b.index))).filter
        (fun b => decide (blockKey b = (s, d, p)))).length)
    ∧ (∀ b, b ∈ chain → 0 < b.index →
        ∃ n, (b.state, b.district, b.party, n) ∈ (get_vote_counts chain).rows)
    ∧ (get_vote_counts c8_chain).rows =
        [("Kerala", "Ernakulam", "LDF", 2), ("Tamil Nadu", "Chennai", "BJP", 1)] := by
  refine ⟨?_, ?_, by decide⟩
  · intro s d p n hmem
    by_cases hE : (chain.filter (fun b => decide (0 < b.index))).isEmpty
    · simp [get_vote_counts, hE] at hmem
    · simp only [get_vote_counts, hE, if_neg, Bool.false_eq_true,
        not_false_eq_true, if_false] at hmem
      rcases List.mem_map.mp hmem with ⟨k, _, hk⟩
      rcases k with ⟨k1, k2, k3⟩
      have h1 : k1 = s := congrArg (fun q => q.1) hk
      have h2 : k2 = d := congrArg (fun q => q.2.1) hk
      have h3 : k3 = p := congrArg (fun q => q.2.2.1) hk
      have h4 : ((chain.filter (fun b => decide (0 < b.index))).filter
          (fun b => decide (blockKey b = (k1, k2, k3)))).length = n :=
        congrArg (fun q => q.2.2.2) hk
      rw [← h4, h1, h2, h3]
  · intro b hb hpos
    have hbv : b ∈ chain.filter (fun b => decide (0 < b.index)) :=
      List.mem_filter.mpr ⟨hb, by simpa using hpos⟩
    have hE : (chain.filter (fun b => decide (0 < b.index))).isEmpty = false := by
      rcases h : (chain.filter (fun b => decide (0 < b.index))).isEmpty with _ | _
      · exact h
      · rw [List.isEmpty_iff] at h
        rw [h] at hbv
        cases hbv
    have hkey : blockKey b ∈
        List.insertionSort (fun a b => keyLe a b = true)
          (((chain.filter (fun b => decide (0 < b.index))).map blockKey).dedup) := by
      refine (List.perm_insertionSort (fun a b => keyLe a b = true) _).mem_iff.mpr ?_
      exact List.mem_dedup.mpr (List.mem_map_of_mem blockKey hbv)
    refine ⟨((chain.filter (fun b => decide (0 < b.index))).filter
      (fun q => decide (blockKey q = blockKey b))).length, ?_⟩
    simp only [get_vote_counts, hE, Bool.false_eq_true, not_false_eq_true,
      if_false]
    have := List.mem_map_of_mem
      (fun k => (k.1, k.2.1, k.2.2,
        ((chain.filter (fun b => decide (0 < b.index))).filter
          (fun q => decide (blockKey q = k))).length)) hkey
    simpa [blockKey] using this

/-- C10: the empty tally frame (no non-genesis entry) has the capitalized
columns State, District, Party, Votes, while any non-empty tally has the
lower-case columns state, district, party, Votes: the two schemas differ.
A genesis-only ledger produces the capitalized empty frame. -/
theorem tally_schema_mismatch (sha256 : String → String) (ts : String)
    (chain : List Block) :
    ((chain.filter (fun b => decide (0 < b.index))) = [] →
      (get_vote_counts chain).columns = ["State", "District", "Party", "Votes"])
    ∧ ((chain.filter (fun b => decide (0 < b.index))) ≠ [] →
      (get_vote_counts chain).columns = ["state", "district", "party", "Votes"])
    ∧ (get_vote_counts (create_genesis_block sha256 ts [])).columns =
        ["State", "District", "Party", "Votes"]
    ∧ (get_vote_counts (create_genesis_block sha256 ts [])).columns ≠
        (get_vote_counts c8_chain).columns := by
  refine ⟨?_, ?_, rfl, ?_⟩
  · intro h
    simp [get_vote_counts, h]
  · intro h
    have hE : (chain.filter (fun b => decide (0 < b.index))).isEmpty = false := by
      rcases hq : (chain.filter (fun b => decide (0 < b.index))).isEmpty with _ | _
      · exact hq
      · exact absurd (List.isEmpty_iff.mp hq) h
    simp [get_vote_counts, hE]
  · have h1 : (get_vote_counts (create_genesis_block sha256 ts [])).columns =
        ["State", "District", "Party", "Votes"] := rfl
    rw [h1]
    decide

end VotingSystem
